import Mathlib

/-!
Verification of the review orchestration engine of the AI-code-review-assistant
backend (`app/services/review_service.py`, `app/services/analysis/base.py`,
`app/services/analysis/ai_reviewer.py`) against its specification.

The Python code is shallowly embedded: pure helpers become Lean functions;
the background analysis run (`ReviewService._run_analysis`) becomes explicit
state passing over a record of the review row, the committed snapshots and the
filesystem facts the spec talks about.  External collaborators (the GitHub
diff fetch, the database commit outcome, the hosted-model call, Python's
`json.loads`) are inputs of the embedding: the claims quantify over their
outcomes.
-/

set_option maxRecDepth 8000

namespace CodeReview

/-! ## Python string primitives

Character-level models of the Python `str` operations the embedded code
uses (`startswith`, `endswith`, single-character `split`, `lower`).  They
are defined over `String.data` so that every concrete witness evaluates
inside the kernel. -/

/-- Python `s.startswith(p)`. -/
def sStartsWith (s p : String) : Bool := p.data.isPrefixOf s.data

/-- Python `s.endswith(p)`. -/
def sEndsWith (s p : String) : Bool := p.data.reverse.isPrefixOf s.data.reverse

/-- Python `s.lower()` (over the ASCII data this code handles). -/
def sToLower (s : String) : String := String.mk (s.data.map Char.toLower)

/-- Helper of `splitChar`: accumulates the current piece in reverse. -/
def splitCharAux (c : Char) : List Char → List Char → List String
  | [], acc => [String.mk acc.reverse]
  | x :: xs, acc =>
    if x == c then String.mk acc.reverse :: splitCharAux c xs []
    else splitCharAux c xs (x :: acc)

/-- Python `s.split(c)` for a one-character separator: keeps empty pieces,
`"".split(c) == [""]`. -/
def splitChar (c : Char) (s : String) : List String := splitCharAux c s.data []

/-- Python `s[:n]` (character slicing). -/
def sTake (s : String) (n : Nat) : String := String.mk (s.data.take n)

/-- Python `s[n:]` (character slicing). -/
def sDrop (s : String) (n : Nat) : String := String.mk (s.data.drop n)

/-! ## Severity counting and score (`review_service.py`) -/

/-- `ReviewService._calculate_score` (review_service.py:184-210):
`score = 100 - 20*critical - 10*warning - 2*info`, clamped to `0..100`.
Python ints are unbounded, so `Int` is the faithful carrier. -/
def calculate_score (critical_count warning_count info_count : Nat) : Int :=
  let score : Int := 100 - critical_count * 20 - warning_count * 10 - info_count * 2
  max 0 (min 100 score)

/-- One finding dictionary as the analyzers hand it to `_run_analysis`.
Only the key read by the aggregation loop (`severity`, via
`finding_data.get("severity", "info")`) is modelled; a missing key is `none`. -/
structure FindingD where
  severity : Option String
  deriving Repr, DecidableEq

/-- The severity actually stored on the `Finding` row:
`finding_data.get("severity", "info")` (review_service.py:131). -/
def FindingD.sev (f : FindingD) : String := f.severity.getD "info"

/-- `AnalyzerResult` (base.py:13-35). -/
structure AnalyzerResult where
  tool : String
  findings : List FindingD
  success : Bool
  error : Option String
  deriving Repr, DecidableEq

/-- One iteration of the result-processing loop of `_run_analysis`
(review_service.py:114-120): an exception entry from
`asyncio.gather(..., return_exceptions=True)` is skipped, a result with
`success = False` is skipped, otherwise its findings extend `all_findings`. -/
def aggStep (acc : List FindingD) (r : Except String AnalyzerResult) :
    List FindingD :=
  match r with
  | .error _ => acc
  | .ok res => if res.success then acc ++ res.findings else acc

/-- The result-processing loop of `_run_analysis` (review_service.py:113-120),
in launch order. -/
def aggregateFindings (results : List (Except String AnalyzerResult)) :
    List FindingD :=
  results.foldl aggStep []

/-- One iteration of the severity-counting loop of `_run_analysis`
(review_service.py:142-148): `critical` on `"critical"`, `warning` on
`"warning"`, everything else `info`. -/
def countStep (acc : Nat × Nat × Nat) (f : FindingD) : Nat × Nat × Nat :=
  if f.sev = "critical" then (acc.1 + 1, acc.2.1, acc.2.2)
  else if f.sev = "warning" then (acc.1, acc.2.1 + 1, acc.2.2)
  else (acc.1, acc.2.1, acc.2.2 + 1)

/-- The severity counts of `_run_analysis` (review_service.py:123-148), as
`(critical_count, warning_count, info_count)`. -/
def countBySeverity (findings : List FindingD) : Nat × Nat × Nat :=
  findings.foldl countStep (0, 0, 0)

/-! ## Workspace filesystem model (`base.py`) -/

/-- A minimal filesystem: the list of existing paths, each tagged with
whether it is a directory. -/
abbrev FS := List (String × Bool)

/-- `workspace.exists()`. -/
def pathExists (fs : FS) (p : String) : Bool :=
  fs.any (fun e => e.1 == p)

/-- `workspace.is_dir()`. -/
def isDirIn (fs : FS) (p : String) : Bool :=
  fs.any (fun e => e.1 == p && e.2)

/-- `q` lies in the tree rooted at `p` (it is `p` itself or below it). -/
def inTree (p q : String) : Bool :=
  q == p || sStartsWith q (p ++ "/")

/-- `shutil.rmtree(p)`: every entry at or below `p` disappears. -/
def rmtree (fs : FS) (p : String) : FS :=
  fs.filter (fun e => !(inTree p e.1))

/-- `cleanup_workspace` (base.py:138-146): delete the tree only when the path
exists and is a directory; otherwise do nothing (and, in the Python body,
raise nothing — the only raising call, `shutil.rmtree`, sits behind the
guard).  A total Lean function, mirroring that totality. -/
def cleanup_workspace (fs : FS) (workspace : String) : FS :=
  if pathExists fs workspace && isDirIn fs workspace then rmtree fs workspace
  else fs

/-! ## Diff extraction (`base.py:86-124`) -/

/-- Python string truthiness of an `Optional[str]`: `None` and `""` are
falsy.  Used for `if current_file ...` in `extract_python_files_from_diff`. -/
def strTruthy : Option String → Bool
  | none => false
  | some s => s != ""

/-- Python `dict` assignment `files[k] = v`: an existing key keeps its
position and gets the new value, a new key is appended. -/
def dictInsert (m : List (String × String)) (k v : String) :
    List (String × String) :=
  if m.any (fun e => e.1 == k) then
    m.map (fun e => if e.1 == k then (k, v) else e)
  else m ++ [(k, v)]

/-- The loop state of `extract_python_files_from_diff`:
`files`, `current_file`, `current_content`. -/
structure ExtractState where
  files : List (String × String)
  current_file : Option String
  current_content : List String
  deriving Repr, DecidableEq

/-- One iteration of the line loop of `extract_python_files_from_diff`
(base.py:100-118): a `diff --git` header flushes the accumulated buffer and
re-derives the tracked path from `parts[3][2:]` (kept only for `.py`); an
added line (`+` but not `+++`) is appended with its marker stripped while a
file is tracked; everything else is ignored. -/
def extractStep (st : ExtractState) (line : String) : ExtractState :=
  if sStartsWith line "diff --git" then
    let flushed : ExtractState :=
      if strTruthy st.current_file && !st.current_content.isEmpty then
        { files := dictInsert st.files (st.current_file.getD "")
            (String.intercalate "\n" st.current_content),
          current_file := st.current_file,
          current_content := [] }
      else st
    let parts := splitChar ' ' line
    if parts.length ≥ 4 then
      let filepath := sDrop (parts.getD 3 "") 2
      if sEndsWith filepath ".py" then { flushed with current_file := some filepath }
      else { flushed with current_file := none }
    else flushed
  else if strTruthy st.current_file && sStartsWith line "+"
      && !(sStartsWith line "+++") then
    { st with current_content := st.current_content ++ [sDrop line 1] }
  else st

/-- `extract_python_files_from_diff` (base.py:86-124).  The returned Python
dict is modelled as an association list in insertion order. -/
def extract_python_files_from_diff (diff_content : String) :
    List (String × String) :=
  let final := (splitChar '\n' diff_content).foldl extractStep ⟨[], none, []⟩
  if strTruthy final.current_file && !final.current_content.isEmpty then
    dictInsert final.files (final.current_file.getD "")
      (String.intercalate "\n" final.current_content)
  else final.files

/-! ## AI reviewer: packing (`ai_reviewer.py:82-115`) -/

/-- Key order used by `sorted(files.items(), key=lambda x: len(x[1]))`. -/
def byLen (a b : String × String) : Prop :=
  a.2.length ≤ b.2.length

instance : DecidableRel byLen := fun a b => Nat.decLe a.2.length b.2.length

instance : IsTotal (String × String) byLen :=
  ⟨fun a b => Nat.le_total a.2.length b.2.length⟩

instance : IsTrans (String × String) byLen :=
  ⟨fun _ _ _ hab hbc => Nat.le_trans hab hbc⟩

/-- Python's `sorted` is the stable ascending sort by the key; a stable
sort is extensionally unique, so insertion sort is a faithful model. -/
def sortByLen (files : List (String × String)) : List (String × String) :=
  List.insertionSort byLen files

/-- The packing loop of `AIReviewer._truncate_files` (ai_reviewer.py:103-113),
over the size-sorted list, carrying `total_chars`.  A file that no longer
fits whole is either appended truncated with the trailing marker — when
`remaining > 1000` — or dropped, and the loop `break`s either way. -/
def truncateLoop (max_chars : Nat) :
    List (String × String) → Nat → List (String × String)
  | [], _ => []
  | (filename, content) :: rest, total_chars =>
    if total_chars + content.length ≤ max_chars then
      (filename, content) :: truncateLoop max_chars rest (total_chars + content.length)
    else
      let remaining := max_chars - total_chars
      if remaining > 1000 then
        [(filename, sTake content remaining ++ "\n\n... (truncated)")]
      else []

/-- `AIReviewer._truncate_files` (ai_reviewer.py:82-115). -/
def truncate_files (files : List (String × String)) (max_chars : Nat) :
    List (String × String) :=
  truncateLoop max_chars (sortByLen files) 0

/-- Modelled from the spec's words for comparison with the source: identical
to `truncateLoop` except that the partially fitting file is kept when
"≥ 1,000 budget characters remain" (`remaining ≥ 1000`), where the source
tests `remaining > 1000`. -/
def truncateLoopSpecGE (max_chars : Nat) :
    List (String × String) → Nat → List (String × String)
  | [], _ => []
  | (filename, content) :: rest, total_chars =>
    if total_chars + content.length ≤ max_chars then
      (filename, content) ::
        truncateLoopSpecGE max_chars rest (total_chars + content.length)
    else
      let remaining := max_chars - total_chars
      if remaining ≥ 1000 then
        [(filename, sTake content remaining ++ "\n\n... (truncated)")]
      else []

/-- The spec's-words variant of `truncate_files`; see `truncateLoopSpecGE`. -/
def truncate_files_specGE (files : List (String × String)) (max_chars : Nat) :
    List (String × String) :=
  truncateLoopSpecGE max_chars (sortByLen files) 0

/-- Total content length of a file list. -/
def sumLen (l : List (String × String)) : Nat :=
  (l.map (fun p => p.2.length)).sum

/-! ## AI reviewer: response parsing (`ai_reviewer.py:117-225`) -/

/-- The character `\x7b` (opening curly brace). -/
def lbrace : Char := Char.ofNat 123

/-- The character `\x7d` (closing curly brace). -/
def rbrace : Char := Char.ofNat 125

/-- Whether `pattern` occurs as a contiguous run inside `l`. -/
def containsSub (pattern : List Char) : List Char → Bool
  | [] => pattern.isEmpty
  | c :: rest => pattern.isPrefixOf (c :: rest) || containsSub pattern rest

/-- Whether `re.search(r"```json\s*(.*?)\s*```", response, re.DOTALL)`
matches: some occurrence of "```json" is followed, anywhere later, by
"```". -/
def hasFence : List Char → Bool
  | [] => false
  | c :: rest =>
    if ("```json".data).isPrefixOf (c :: rest) then
      containsSub ("```".data) ((c :: rest).drop 7)
    else hasFence rest

/-- Whether `re.search(r"\x7b.*\x7d", response, re.DOTALL)` matches: some
opening brace is followed, anywhere later, by a closing brace. -/
def hasBrace (l : List Char) : Bool :=
  match l.dropWhile (fun c => c != lbrace) with
  | [] => false
  | _ :: rest => rest.contains rbrace

/-- The matched group of the fenced-block regex: the content after the first
"```json", up to the next "```", trimmed of surrounding whitespace. -/
def takeUntilFence : List Char → List Char
  | [] => []
  | c :: rest =>
    if ("```".data).isPrefixOf (c :: rest) then []
    else c :: takeUntilFence rest

/-- Drop whitespace from both ends. -/
def trimChars (l : List Char) : List Char :=
  ((l.dropWhile Char.isWhitespace).reverse.dropWhile Char.isWhitespace).reverse

/-- The string handed to `json.loads` in the fenced-block stage. -/
def extractFenced : List Char → List Char
  | [] => []
  | c :: rest =>
    if ("```json".data).isPrefixOf (c :: rest) then
      trimChars (takeUntilFence ((c :: rest).drop 7))
    else extractFenced rest

/-- The string handed to `json.loads` in the brace stage: the greedy match
of `\x7b.*\x7d`, i.e. from the first opening to the last closing brace. -/
def extractBrace (l : List Char) : List Char :=
  let t := l.dropWhile (fun c => c != lbrace)
  (t.reverse.dropWhile (fun c => c != rbrace)).reverse

/-- One finding dict as `_parse_ai_response` hands it back; every key the
code writes is a field. -/
structure AIFinding where
  category : String
  severity : String
  title : String
  description : String
  file_path : Option String
  line_number : Option Nat
  code_snippet : Option String
  suggestion : Option String
  tool_source : String
  deriving Repr, DecidableEq

/-- One element of `data.get("findings", [])` as the model may emit it; a
missing key is `none`. -/
structure RawFinding where
  category : Option String
  severity : Option String
  title : Option String
  description : Option String
  file_path : Option String
  line_number : Option Nat
  code_snippet : Option String
  suggestion : Option String
  deriving Repr, DecidableEq

/-- Outcome of Python's `json.loads` plus `data.get("findings", [])` on the
extracted string — an external library, hence an input of the embedding.
`decodeError` is `json.JSONDecodeError`; `otherError` is any other
exception (caught by the blanket `except Exception`). -/
inductive JsonOutcome where
  | ok (findings : List RawFinding)
  | decodeError (msg : String)
  | otherError (msg : String)
  deriving Repr, DecidableEq

/-- `AIReviewer._map_category` (ai_reviewer.py:203-225): the table maps each
known key to itself, so the lookup lower-cases and falls back to
"ai-review". -/
def map_category (ai_category : String) : String :=
  if (["best-practices", "design", "error-handling", "performance",
      "maintainability", "testing", "architecture", "security",
      "quality"] : List String).contains (sToLower ai_category) then
    sToLower ai_category
  else "ai-review"

/-- The per-finding normalization loop of `_parse_ai_response`
(ai_reviewer.py:160-181). -/
def mapAIFinding (f : RawFinding) : AIFinding :=
  let severity0 := sToLower (f.severity.getD "info")
  { category := map_category (f.category.getD "best-practices"),
    severity :=
      if (["critical", "warning", "info"] : List String).contains severity0 then
        severity0
      else "info",
    title := f.title.getD "AI Review Finding",
    description := f.description.getD "",
    file_path := f.file_path,
    line_number := f.line_number,
    code_snippet := f.code_snippet,
    suggestion := f.suggestion,
    tool_source := "ai-claude" }

/-- The finding synthesized from a raw text response
(ai_reviewer.py:142-152 and 187-197). -/
def synthFinding (description : String) : AIFinding :=
  { category := "ai-review",
    severity := "info",
    title := "AI Code Review",
    description := description,
    file_path := none,
    line_number := none,
    code_snippet := none,
    suggestion := some "Review the AI-generated feedback above",
    tool_source := "ai-claude" }

/-- `AIReviewer._parse_ai_response` (ai_reviewer.py:117-201).  Staged:
fenced block, else first-to-last-brace span, else one synthesized finding
whose description is `response[:1000] if response else "No feedback
provided"`.  A `json.JSONDecodeError` in the first two stages synthesizes
the same finding with description `response[:1000]` unconditionally; any
other parsing exception yields the empty list. -/
def parse_ai_response (decode : String → JsonOutcome) (response : String) :
    List AIFinding :=
  let stage2 : String → List AIFinding := fun json_str =>
    match decode json_str with
    | .ok raw => raw.map mapAIFinding
    | .decodeError _ => [synthFinding (sTake response 1000)]
    | .otherError _ => []
  if hasFence response.data then
    stage2 (String.mk (extractFenced response.data))
  else if hasBrace response.data then
    stage2 (String.mk (extractBrace response.data))
  else
    [synthFinding
      (if response = "" then "No feedback provided" else sTake response 1000)]

/-- The `AnalyzerResult` produced by `AIReviewer.analyze`, with the typed
finding dicts of the AI path. -/
structure AIResult where
  tool : String
  findings : List AIFinding
  success : Bool
  error : Option String
  deriving Repr, DecidableEq

/-- `AIReviewer.analyze` (ai_reviewer.py:20-80).  `available` is
`claude_service.is_available()`; `callModel` is the outcome of the network
call `claude_service.review_code` (response text, or the exception caught
by the `except` clause); `decode` is the `json.loads` oracle.  The second
component records whether the model was called at all. -/
def ai_analyze (available : Bool) (files : List (String × String))
    (callModel : List (String × String) → Except String String)
    (decode : String → JsonOutcome) : AIResult × Bool :=
  if !available then
    (⟨"ai-claude", [], false,
      some "Claude API key not configured. Set ANTHROPIC_API_KEY environment variable."⟩,
     false)
  else
    let truncated := truncate_files files 50000
    if truncated.length = 0 then
      (⟨"ai-claude", [], true, none⟩, false)
    else
      match callModel truncated with
      | .error e => (⟨"ai-claude", [], false, some ("AI review failed: " ++ e)⟩, true)
      | .ok response =>
        (⟨"ai-claude", parse_ai_response decode response, true, none⟩, true)

/-! ## Workspace file writing (`base.py:149-165`) -/

/-- A POSIX path as `pathlib` normalizes it: absoluteness plus the segment
list with empty and `"."` components removed (`pathlib` drops both at
construction and keeps `".."`). -/
structure PPath where
  absolute : Bool
  segments : List String
  deriving Repr, DecidableEq

/-- Parse a path string the way `pathlib.Path` does. -/
def parsePath (s : String) : PPath :=
  { absolute := sStartsWith s "/",
    segments := (splitChar '/' s).filter (fun seg => seg != "" && seg != ".") }

/-- `workspace / filepath`: `pathlib`'s join — an absolute right operand
replaces the base entirely. -/
def joinPath (base : PPath) (p : String) : PPath :=
  let q := parsePath p
  if q.absolute then q else { absolute := base.absolute, segments := base.segments ++ q.segments }

/-- Where the operating system actually lands when the joined path is
opened: `".."` segments pop the previous component. -/
def resolveSegs (segs : List String) : List String :=
  segs.foldl (fun acc seg => if seg = ".." then acc.dropLast else acc ++ [seg]) []

/-- The resolved on-disk location of a `PPath`. -/
def resolvePath (p : PPath) : PPath :=
  { absolute := p.absolute, segments := resolveSegs p.segments }

/-- `write_files_to_workspace` (base.py:149-165): every entry of the map is
written, unconditionally, at `workspace / filepath`; the body performs no
validation and rejects nothing.  Returned: the joined target path of each
write, in order. -/
def write_files_to_workspace (files : List (String × String))
    (workspace : PPath) : List (PPath × String) :=
  files.map (fun fc => (joinPath workspace fc.1, fc.2))

/-- The resolved locations the writes land at. -/
def writtenLocations (files : List (String × String)) (workspace : PPath) :
    List PPath :=
  (write_files_to_workspace files workspace).map (fun e => resolvePath e.1)

/-- `p` is strictly below `ws`. -/
def strictlyUnder (ws p : PPath) : Bool :=
  ws.absolute == p.absolute && ws.segments.isPrefixOf p.segments
    && ws.segments.length < p.segments.length

/-! ## The review run (`review_service.py:29-182`) -/

/-- The `Review` row fields driven by the orchestrator.  Fields no claim
refers to (timestamps, ids, summary text) are omitted. -/
structure ReviewRow where
  status : String
  overall_score : Option Int
  critical_count : Nat
  warning_count : Nat
  info_count : Nat
  deriving Repr, DecidableEq

/-- Observable history of one run: every status value the row has held (in
assignment order), every snapshot a successful `db.commit()` persisted,
how many workspaces were created and whether the workspace directory still
exists, how many commits were attempted, and whether a commit of a row
whose status was already `"completed"` ever raised. -/
structure World where
  statusHistory : List String
  committed : List ReviewRow
  commitIdx : Nat
  wsCreated : Nat
  wsExists : Bool
  completionCommitRaised : Bool
  deriving Repr, DecidableEq

/-- The external outcomes one run can encounter: the result of each
`db.commit()` in attempt order, the diff fetch, the workspace write, and
the three `asyncio.gather` slots (an `Except.error` is an exception
captured by `return_exceptions=True`). -/
structure Env where
  commitOk : Nat → Bool
  fetchDiff : Except String String
  writeOk : Bool
  secResult : Except String AnalyzerResult
  qualResult : Except String AnalyzerResult
  compResult : Except String AnalyzerResult

/-- `review.status = s`, recorded in the history. -/
def setStatus (s : String) (rv : ReviewRow) (w : World) : ReviewRow × World :=
  ({ rv with status := s }, { w with statusHistory := w.statusHistory ++ [s] })

/-- `db.commit()`: on success the current row becomes the next committed
snapshot; on failure an exception propagates (`Except.error`).  A failing
commit of an already-`"completed"` row sets the ghost flag. -/
def commitDb (env : Env) (rv : ReviewRow) (w : World) : Except World World :=
  let k := w.commitIdx
  let w := { w with commitIdx := k + 1 }
  if env.commitOk k then .ok { w with committed := w.committed ++ [rv] }
  else .error { w with
    completionCommitRaised := w.completionCommitRaised || (rv.status == "completed") }

/-- The `try` block of `ReviewService._run_analysis`
(review_service.py:74-169), step by step; `Except.error` is the exception
path into the `except` clause, carrying the row and world when it was
raised. -/
def tryBody (env : Env) (rv : ReviewRow) (w : World) :
    Except (ReviewRow × World) (ReviewRow × World) :=
  let (rv, w) := setStatus "in_progress" rv w
  match commitDb env rv w with
  | .error w => .error (rv, w)
  | .ok w =>
    match env.fetchDiff with
    | .error _ => .error (rv, w)
    | .ok diff =>
      let python_files := extract_python_files_from_diff diff
      if python_files.isEmpty then
        let (rv, w) := setStatus "completed" rv w
        let rv := { rv with overall_score := some 100 }
        match commitDb env rv w with
        | .error w => .error (rv, w)
        | .ok w => .ok (rv, w)
      else
        let w := { w with wsCreated := w.wsCreated + 1, wsExists := true }
        if !env.writeOk then .error (rv, w)
        else
          let results := [env.secResult, env.qualResult, env.compResult]
          let all_findings := aggregateFindings results
          let counts := countBySeverity all_findings
          let score := calculate_score counts.1 counts.2.1 counts.2.2
          let (rv, w) := setStatus "completed" rv w
          let rv := { rv with
            overall_score := some score,
            critical_count := counts.1,
            warning_count := counts.2.1,
            info_count := counts.2.2 }
          match commitDb env rv w with
          | .error w => .error (rv, w)
          | .ok w => .ok (rv, w)

/-- The `except` clause (review_service.py:171-177): mark the row failed and
commit; a failure of that commit propagates out of the task without further
state change.  Note the clause resets neither `overall_score` nor the
counts. -/
def exceptClause (env : Env) (rv : ReviewRow) (w : World) : ReviewRow × World :=
  let (rv, w) := setStatus "failed" rv w
  match commitDb env rv w with
  | .error w => (rv, w)
  | .ok w => (rv, w)

/-- The `finally` clause (review_service.py:179-182): `if workspace:
cleanup_workspace(workspace)`.  The workspace variable is set exactly when
one was created; `cleanup_workspace` removes the directory. -/
def finallyCleanup (rv : ReviewRow) (w : World) : ReviewRow × World :=
  if w.wsCreated > 0 then (rv, { w with wsExists := false }) else (rv, w)

/-- `ReviewService._run_analysis` (review_service.py:60-182). -/
def runAnalysis (env : Env) (rv : ReviewRow) (w : World) : ReviewRow × World :=
  match tryBody env rv w with
  | .ok (rv, w) => finallyCleanup rv w
  | .error (rv, w) =>
    let (rv, w) := exceptClause env rv w
    finallyCleanup rv w

/-- `ReviewService.create_review` (review_service.py:29-58) followed by the
background `_run_analysis` task: the row is created `"pending"` with zero
counts and committed; if that commit raises, the task is never started. -/
def runReview (env : Env) : ReviewRow × World :=
  let rv : ReviewRow :=
    { status := "pending", overall_score := none,
      critical_count := 0, warning_count := 0, info_count := 0 }
  let w : World :=
    { statusHistory := ["pending"], committed := [], commitIdx := 0,
      wsCreated := 0, wsExists := false, completionCommitRaised := false }
  match commitDb env rv w with
  | .error w => (rv, w)
  | .ok w => runAnalysis env rv w

/-- Environment of a run in which every external step succeeds and no
analyzer reports a finding. -/
def okEnv : Env :=
  { commitOk := fun _ => true,
    fetchDiff := .ok "diff --git a/a.py b/a.py\n+pass",
    writeOk := true,
    secResult := .ok ⟨"bandit", [], true, none⟩,
    qualResult := .ok ⟨"pylint", [], true, none⟩,
    compResult := .ok ⟨"radon", [], true, none⟩ }

/-- Environment identical to `okEnv` except that the third commit attempt —
the one persisting the completed row — raises, and the commit issued by the
`except` clause succeeds. -/
def cexEnv : Env :=
  { commitOk := fun k => k != 2,
    fetchDiff := .ok "diff --git a/a.py b/a.py\n+pass",
    writeOk := true,
    secResult := .ok ⟨"bandit", [], true, none⟩,
    qualResult := .ok ⟨"pylint", [], true, none⟩,
    compResult := .ok ⟨"radon", [], true, none⟩ }

/-! ## Support definitions for the statements -/

/-- A string of `n` copies of one character, for concrete packing inputs. -/
def mkStr (n : Nat) : String := String.mk (List.replicate n 'a')

/-- Concrete file map whose two smallest files occupy exactly 49,000 of the
50,000-character budget, leaving a remainder of exactly 1,000. -/
def cexFiles : List (String × String) :=
  [("a", mkStr 24000), ("b", mkStr 25000), ("c", mkStr 26000)]

/-- `s` is one added line of the diff, marker stripped: some line of `ls`
starts with `"+"`, does not start with `"+++"`, and `s` is that line without
its first character. -/
def GoodLine (ls : List String) (s : String) : Prop :=
  ∃ line, line ∈ ls ∧ sStartsWith line "+" = true ∧
    sStartsWith line "+++" = false ∧ s = sDrop line 1

/-- `v` is the newline-join of a nonempty list of added lines of the diff,
markers stripped. -/
def GoodVal (ls : List String) (v : String) : Prop :=
  ∃ L : List String, L ≠ [] ∧ v = String.intercalate "\n" L ∧
    ∀ s ∈ L, GoodLine ls s

/-- Invariant of the extraction loop: every saved value and every buffered
line is built from added lines of the diff, and every tracked or saved path
ends in `.py`. -/
def StInv (ls : List String) (st : ExtractState) : Prop :=
  (∀ kv ∈ st.files, sEndsWith kv.1 ".py" = true ∧ GoodVal ls kv.2) ∧
  (∀ f, st.current_file = some f → sEndsWith f ".py" = true) ∧
  (∀ s ∈ st.current_content, GoodLine ls s)

/-! ## Theorems -/

/-- C3: for all non-negative counts, `_calculate_score` equals
`max(0, min(100, 100 − 20·c − 10·w − 2·i))`, lies in `0..100`, and takes the
claimed values on the four sample inputs.  Determinism and purity are
inherent: the embedding is a function of the three counts alone. -/
theorem calculate_score_correct :
    (∀ c w i : Nat,
      calculate_score c w i =
        max 0 (min 100 (100 - 20 * (c : Int) - 10 * (w : Int) - 2 * (i : Int))) ∧
      0 ≤ calculate_score c w i ∧ calculate_score c w i ≤ 100) ∧
    calculate_score 0 0 0 = 100 ∧ calculate_score 1 0 0 = 80 ∧
    calculate_score 5 0 0 = 0 ∧ calculate_score 2 1 0 = 50 := by
  refine ⟨fun c w i => ⟨?_, ?_, ?_⟩, by decide, by decide, by decide, by decide⟩
  · have h : (100 : Int) - (c : Int) * 20 - (w : Int) * 10 - (i : Int) * 2
        = 100 - 20 * (c : Int) - 10 * (w : Int) - 2 * (i : Int) := by ring
    simp only [calculate_score, h]
  · exact le_max_left 0 _
  · exact max_le (by norm_num) (min_le_left _ _)

/-- The severity-count fold adds exactly one to one of the three components
per finding. -/
theorem countFold_sum (fs : List FindingD) : ∀ acc : Nat × Nat × Nat,
    (fs.foldl countStep acc).1 + (fs.foldl countStep acc).2.1
        + (fs.foldl countStep acc).2.2
      = acc.1 + acc.2.1 + acc.2.2 + fs.length := by
  induction fs with
  | nil => intro acc; simp
  | cons f fs ih =>
    intro acc
    simp only [List.foldl_cons, List.length_cons]
    rw [ih]
    by_cases h1 : f.sev = "critical"
    · simp [countStep, h1]; omega
    · by_cases h2 : f.sev = "warning" <;> simp [countStep, h1, h2] <;> omega

/-- The aggregation fold is accumulator-homogeneous. -/
theorem foldl_aggStep_acc (rs : List (Except String AnalyzerResult)) :
    ∀ acc : List FindingD,
      rs.foldl aggStep acc = acc ++ rs.foldl aggStep [] := by
  induction rs with
  | nil => intro acc; simp
  | cons r rs ih =>
    intro acc
    simp only [List.foldl_cons]
    rw [ih (aggStep acc r), ih (aggStep [] r), ← List.append_assoc]
    congr 1
    cases r with
    | error e => simp [aggStep]
    | ok res => by_cases h : res.success <;> simp [aggStep, h]

/-- The aggregation loop concatenates, in launch order, exactly the findings
of the successful results. -/
theorem aggregateFindings_eq (rs : List AnalyzerResult) :
    aggregateFindings (rs.map Except.ok)
      = ((rs.filter (fun r => r.success)).map AnalyzerResult.findings).flatten := by
  induction rs with
  | nil => rfl
  | cons r rs ih =>
    simp only [List.map_cons, aggregateFindings, List.foldl_cons] at *
    rw [foldl_aggStep_acc]
    by_cases h : r.success <;> simp [aggStep, h, ih]

/-- C4: for every launch-ordered list of `AnalyzerResult`s, the aggregated
findings are the launch-order concatenation of the findings of exactly the
`success = true` results (so a failed result contributes nothing, whatever
its `findings` hold), and the three severity counts sum to the length of
the aggregated list. -/
theorem aggregation_correct (results : List AnalyzerResult) :
    aggregateFindings (results.map Except.ok)
      = ((results.filter (fun r => r.success)).map AnalyzerResult.findings).flatten ∧
    (countBySeverity (aggregateFindings (results.map Except.ok))).1
      + (countBySeverity (aggregateFindings (results.map Except.ok))).2.1
      + (countBySeverity (aggregateFindings (results.map Except.ok))).2.2
      = (aggregateFindings (results.map Except.ok)).length := by
  refine ⟨aggregateFindings_eq results, ?_⟩
  have h := countFold_sum (aggregateFindings (results.map Except.ok)) (0, 0, 0)
  simpa [countBySeverity] using h

/-- C10: `cleanup_workspace` on a path that does not exist, or is not a
directory, changes nothing (and, being a total function, raises nothing);
and cleaning up twice equals cleaning up once. -/
theorem cleanup_workspace_total_idempotent (fs : FS) (ws : String) :
    (pathExists fs ws = false ∨ isDirIn fs ws = false →
      cleanup_workspace fs ws = fs) ∧
    cleanup_workspace (cleanup_workspace fs ws) ws = cleanup_workspace fs ws := by
  constructor
  · intro h
    unfold cleanup_workspace
    rcases h with h | h <;> simp [h]
  · by_cases h : (pathExists fs ws && isDirIn fs ws) = true
    · have h2 : pathExists (cleanup_workspace fs ws) ws = false := by
        unfold cleanup_workspace
        rw [if_pos h]
        rw [Bool.eq_false_iff]
        intro hc
        simp only [pathExists, rmtree, List.any_eq_true, List.mem_filter] at hc
        obtain ⟨e, ⟨_, hkeep⟩, heq⟩ := hc
        have he : e.1 = ws := by simpa using heq
        have ht : inTree ws e.1 = true := by simp [inTree, he]
        simp [ht] at hkeep
      conv_lhs => rw [cleanup_workspace]
      rw [if_neg]
      simp [h2]
    · have hsame : cleanup_workspace fs ws = fs := by
        unfold cleanup_workspace; rw [if_neg h]
      rw [hsame, hsame]

/-- Witness for C10 at a concrete input: cleaning up a path that does not
exist changes nothing. -/
theorem cleanup_workspace_total_idempotent_witness :
    cleanup_workspace [("a", true)] "b" = [("a", true)] :=
  (cleanup_workspace_total_idempotent [("a", true)] "b").1 (Or.inl (by decide))

/-- C9 counterexample: `write_files_to_workspace` does not reject a
parent-traversal path — the single file `"../evil.py"` is materialized, and
it lands outside the workspace (`/tmp/cr` here), at `/tmp/evil.py`. -/
theorem write_files_escape_cex :
    writtenLocations [("../evil.py", "x")] ⟨true, ["tmp", "cr"]⟩
        = [⟨true, ["tmp", "evil.py"]⟩] ∧
    strictlyUnder ⟨true, ["tmp", "cr"]⟩ ⟨true, ["tmp", "evil.py"]⟩ = false := by
  constructor
  · decide
  · decide

/-- A fold of path segments without `".."` never pops. -/
theorem resolveSegs_no_parent (segs : List String) (h : ".." ∉ segs) :
    resolveSegs segs = segs := by
  have hgen : ∀ acc, segs.foldl
      (fun acc seg => if seg = ".." then acc.dropLast else acc ++ [seg]) acc
      = acc ++ segs := by
    induction segs with
    | nil => intro acc; simp
    | cons s rest ih =>
      intro acc
      have hs : s ≠ ".." := fun hs => h (hs ▸ List.mem_cons_self s rest)
      have hrest : ".." ∉ rest := fun hr => h (List.mem_cons_of_mem s hr)
      simp only [List.foldl_cons, if_neg hs]
      rw [ih hrest (acc ++ [s])]
      simp
  simpa [resolveSegs] using hgen []

/-- C9 amended: the source performs no path validation — every entry of the
map is written, at `workspace / filepath` — and only for a relative,
traversal-free, nonempty path is the written location guaranteed to be
strictly under the workspace; an absolute or parent-traversal path escapes
(see the counterexample). -/
theorem write_files_under_workspace (files : List (String × String))
    (ws : PPath) (hws : ".." ∉ ws.segments) :
    (write_files_to_workspace files ws).length = files.length ∧
    ∀ fc ∈ files,
      (parsePath fc.1).absolute = false →
      ".." ∉ (parsePath fc.1).segments →
      (parsePath fc.1).segments ≠ [] →
      strictlyUnder ws (resolvePath (joinPath ws fc.1)) = true := by
  refine ⟨by simp [write_files_to_workspace], ?_⟩
  intro fc _ habs hpar hne
  have hjoin : joinPath ws fc.1
      = ⟨ws.absolute, ws.segments ++ (parsePath fc.1).segments⟩ := by
    unfold joinPath
    rw [if_neg (by simp [habs])]
  have hres : resolveSegs (ws.segments ++ (parsePath fc.1).segments)
      = ws.segments ++ (parsePath fc.1).segments := by
    apply resolveSegs_no_parent
    intro hmem
    rcases List.mem_append.mp hmem with h | h
    · exact hws h
    · exact hpar h
  rw [hjoin]
  unfold resolvePath strictlyUnder
  simp only [hres]
  have h2 : ws.segments.isPrefixOf (ws.segments ++ (parsePath fc.1).segments) = true :=
    List.isPrefixOf_iff_prefix.mpr (List.prefix_append _ _)
  have hlen : 0 < (parsePath fc.1).segments.length := List.length_pos.mpr hne
  simp only [h2, beq_self_eq_true, Bool.true_and, Bool.and_true,
    List.length_append, decide_eq_true_eq]
  omega

/-- Witness for C9's amended statement at a concrete input: a relative,
traversal-free file lands strictly under the workspace. -/
theorem write_files_under_workspace_witness :
    strictlyUnder ⟨true, ["tmp", "cr"]⟩
      (resolvePath (joinPath ⟨true, ["tmp", "cr"]⟩ "src/m.py")) = true :=
  (write_files_under_workspace [("src/m.py", "x")] ⟨true, ["tmp", "cr"]⟩
      (by decide)).2
    ("src/m.py", "x") (by decide) (by decide) (by decide) (by decide)

/-- C6 counterexample: the empty raw response contains neither a fenced
JSON block nor a brace pair, yet the synthesized finding's description is
the fixed text `"No feedback provided"`, not the first 1,000 characters of
the response (which would be `""`). -/
theorem ai_parse_no_json_cex :
    hasFence ("" : String).data = false ∧ hasBrace ("" : String).data = false ∧
    parse_ai_response (fun _ => JsonOutcome.otherError "") ""
      = [synthFinding "No feedback provided"] ∧
    "No feedback provided" ≠ sTake "" 1000 := by
  refine ⟨by decide, by decide, by decide, by decide⟩

/-- C6 amended: when the raw response matches neither the fenced-JSON
regex nor the brace regex, `_parse_ai_response` returns exactly one
synthesized finding with category `"ai-review"`, severity `"info"`, tool
source `"ai-claude"`, and description equal to the first 1,000 characters
of the response when the response is non-empty — an empty response instead
yields the fixed text `"No feedback provided"`. -/
theorem ai_parse_no_json (decode : String → JsonOutcome) (response : String)
    (h1 : hasFence response.data = false) (h2 : hasBrace response.data = false) :
    ∃ f, parse_ai_response decode response = [f] ∧
      f.category = "ai-review" ∧ f.severity = "info" ∧
      f.tool_source = "ai-claude" ∧
      (response ≠ "" → f.description = sTake response 1000) ∧
      (response = "" → f.description = "No feedback provided") := by
  refine ⟨synthFinding
    (if response = "" then "No feedback provided" else sTake response 1000),
    ?_, rfl, rfl, rfl, ?_, ?_⟩
  · unfold parse_ai_response
    rw [if_neg (by simp [h1]), if_neg (by simp [h2])]
  · intro h
    simp [synthFinding, h]
  · intro h
    simp [synthFinding, h]

/-- Witness for C6's amended statement: a plain-text response yields one
finding whose description is the (short) response itself. -/
theorem ai_parse_no_json_witness :
    ∃ f, parse_ai_response (fun _ => JsonOutcome.otherError "") "hello" = [f] ∧
      f.category = "ai-review" ∧ f.severity = "info" ∧
      f.tool_source = "ai-claude" ∧
      ("hello" ≠ "" → f.description = sTake "hello" 1000) ∧
      ("hello" = "" → f.description = "No feedback provided") :=
  ai_parse_no_json (fun _ => JsonOutcome.otherError "") "hello"
    (by decide) (by decide)

/-- Length of a replicated-character string. -/
theorem mkStr_length (n : Nat) : (mkStr n).length = n := by
  show (List.replicate n 'a').length = n
  simp

/-- `sumLen` over `nil`. -/
theorem sumLen_nil : sumLen [] = 0 := rfl

/-- `sumLen` over `cons`. -/
theorem sumLen_cons (p : String × String) (l : List (String × String)) :
    sumLen (p :: l) = p.2.length + sumLen l := by
  simp [sumLen]

/-- Shape of the packing loop: some number `n` of leading files of the
(already sorted) list is taken whole — each fitting the budget cumulatively
— and the next file, if any, did not fit whole and is either appended
truncated with the marker (when more than 1,000 budget characters remain)
or dropped together with everything after it. -/
theorem truncateLoop_shape (B : Nat) (l : List (String × String)) :
    ∀ t : Nat,
      ∃ n, n ≤ l.length ∧
        (∀ k, k < n → t + sumLen (l.take (k + 1)) ≤ B) ∧
        (n < l.length → t + sumLen (l.take n) + (l.getD n ("", "")).2.length > B) ∧
        truncateLoop B l t =
          l.take n ++
            (if n < l.length then
              (if B - (t + sumLen (l.take n)) > 1000 then
                [((l.getD n ("", "")).1,
                  sTake (l.getD n ("", "")).2 (B - (t + sumLen (l.take n)))
                    ++ "\n\n... (truncated)")]
              else [])
            else []) := by
  induction l with
  | nil =>
    intro t
    exact ⟨0, by simp, by omega, by simp, by simp [truncateLoop]⟩
  | cons fc rest ih =>
    intro t
    obtain ⟨f, c⟩ := fc
    by_cases hfit : t + c.length ≤ B
    · obtain ⟨n, hn, h1, h2, h3⟩ := ih (t + c.length)
      refine ⟨n + 1, by simpa using hn, ?_, ?_, ?_⟩
      · intro k hk
        cases k with
        | zero => simpa using hfit
        | succ j =>
          have hj := h1 j (by omega)
          simp only [List.take_succ_cons, sumLen_cons] at hj ⊢
          omega
      · intro hlt
        have hl := h2 (by simpa using hlt)
        simp only [List.take_succ_cons, sumLen_cons, List.getD_cons_succ] at hl ⊢
        omega
      · show truncateLoop B ((f, c) :: rest) t = _
        rw [truncateLoop, if_pos hfit, h3]
        simp only [List.take_succ_cons, List.length_cons, sumLen_cons,
          List.getD_cons_succ, List.cons_append, Nat.add_lt_add_iff_right]
        have harith : t + c.length + sumLen (rest.take n)
            = t + (c.length + sumLen (rest.take n)) := by omega
        rw [harith]
    · refine ⟨0, by simp, by omega, ?_, ?_⟩
      · intro _
        simp only [List.take_zero, sumLen_nil, List.getD_cons_zero]
        omega
      · rw [truncateLoop, if_neg hfit]
        simp only [List.take_zero, List.length_cons, sumLen_nil,
          List.getD_cons_zero, List.nil_append, Nat.add_zero]
        have hpos : 0 < rest.length + 1 := Nat.succ_pos _
        rw [if_pos hpos]

/-- C5 (amended: the partial file is kept only when strictly more than
1,000 budget characters remain, i.e. at least 1,001 — the source tests
`remaining > 1000`, not `>= 1000`): `AIReviewer` packs smallest-first — the
packed list is a sorted-by-size permutation prefix taken whole while it
fits the 50,000-character budget, the first file not fitting whole is
appended truncated with the trailing marker when more than 1,000 budget
characters remain and otherwise dropped with everything after it — and an
empty packed set makes `analyze` skip the model call and return
`success = true` with zero findings. -/
theorem ai_packing_correct (files : List (String × String))
    (callModel : List (String × String) → Except String String)
    (decode : String → JsonOutcome) :
    List.Sorted byLen (sortByLen files) ∧
    List.Perm (sortByLen files) files ∧
    (∃ n, n ≤ (sortByLen files).length ∧
      (∀ k, k < n → sumLen ((sortByLen files).take (k + 1)) ≤ 50000) ∧
      (n < (sortByLen files).length →
        sumLen ((sortByLen files).take n)
          + ((sortByLen files).getD n ("", "")).2.length > 50000) ∧
      truncate_files files 50000 =
        (sortByLen files).take n ++
          (if n < (sortByLen files).length then
            (if 50000 - sumLen ((sortByLen files).take n) > 1000 then
              [(((sortByLen files).getD n ("", "")).1,
                sTake ((sortByLen files).getD n ("", "")).2
                    (50000 - sumLen ((sortByLen files).take n))
                  ++ "\n\n... (truncated)")]
            else [])
          else [])) ∧
    (truncate_files files 50000 = [] →
      ai_analyze true files callModel decode = (⟨"ai-claude", [], true, none⟩, false)) := by
  refine ⟨List.sorted_insertionSort byLen files,
    List.perm_insertionSort byLen files, ?_, ?_⟩
  · obtain ⟨n, hn, h1, h2, h3⟩ := truncateLoop_shape 50000 (sortByLen files) 0
    refine ⟨n, hn, ?_, ?_, ?_⟩
    · intro k hk
      have := h1 k hk
      omega
    · intro hlt
      have := h2 hlt
      omega
    · show truncateLoop 50000 (sortByLen files) 0 = _
      rw [h3]
      simp only [Nat.zero_add]
  · intro h
    unfold ai_analyze
    simp only [Bool.not_true, Bool.false_eq_true, if_false, h,
      List.length_nil, if_pos rfl, if_true]

/-- Witness for C5's amended statement: the empty file map packs to the
empty set, and `analyze` then skips the model call, returning a successful
empty result. -/
theorem ai_packing_correct_witness :
    ai_analyze true [] (fun _ => Except.error "down")
        (fun _ => JsonOutcome.otherError "")
      = (⟨"ai-claude", [], true, none⟩, false) :=
  (ai_packing_correct [] (fun _ => Except.error "down")
      (fun _ => JsonOutcome.otherError "")).2.2.2 (by decide)

/-- C5 counterexample: with the fixed 50,000-character budget and files of
sizes 24,000, 25,000 and 26,000, the two smaller files leave a remainder of
exactly 1,000 characters; the claim ("appended truncated if ≥ 1,000 budget
characters remain") would keep a truncated third file, but the source
(`remaining > 1000`) drops it. -/
theorem ai_packing_cex :
    (truncate_files cexFiles 50000).map Prod.fst = ["a", "b"] ∧
    (truncate_files_specGE cexFiles 50000).map Prod.fst = ["a", "b", "c"] ∧
    50000 - ((mkStr 24000).length + (mkStr 25000).length) = 1000 := by
  have h24 := mkStr_length 24000
  have h25 := mkStr_length 25000
  have h26 := mkStr_length 26000
  have hbc : byLen ("b", mkStr 25000) ("c", mkStr 26000) := by
    show (mkStr 25000).length ≤ (mkStr 26000).length
    rw [h25, h26]; norm_num
  have hab : byLen ("a", mkStr 24000) ("b", mkStr 25000) := by
    show (mkStr 24000).length ≤ (mkStr 25000).length
    rw [h24, h25]; norm_num
  have hs : sortByLen cexFiles = cexFiles := by
    show List.orderedInsert byLen ("a", mkStr 24000)
        (List.orderedInsert byLen ("b", mkStr 25000) [("c", mkStr 26000)])
      = cexFiles
    have e1 : List.orderedInsert byLen ("b", mkStr 25000) [("c", mkStr 26000)]
        = if byLen ("b", mkStr 25000) ("c", mkStr 26000) then
            [("b", mkStr 25000), ("c", mkStr 26000)]
          else ("c", mkStr 26000)
              :: List.orderedInsert byLen ("b", mkStr 25000) [] := rfl
    rw [e1, if_pos hbc]
    have e2 : List.orderedInsert byLen ("a", mkStr 24000)
          [("b", mkStr 25000), ("c", mkStr 26000)]
        = if byLen ("a", mkStr 24000) ("b", mkStr 25000) then
            [("a", mkStr 24000), ("b", mkStr 25000), ("c", mkStr 26000)]
          else ("b", mkStr 25000) :: List.orderedInsert byLen
              ("a", mkStr 24000) [("c", mkStr 26000)] := rfl
    rw [e2, if_pos hab]
    rfl
  have t1 : (0 : Nat) + (mkStr 24000).length ≤ 50000 := by rw [h24]; norm_num
  have t2 : (0 : Nat) + (mkStr 24000).length + (mkStr 25000).length ≤ 50000 := by
    rw [h24, h25]; norm_num
  have t3 : ¬ ((0 : Nat) + (mkStr 24000).length + (mkStr 25000).length
      + (mkStr 26000).length ≤ 50000) := by
    rw [h24, h25, h26]; norm_num
  have t4 : ¬ (50000 - ((0 : Nat) + (mkStr 24000).length
      + (mkStr 25000).length) > 1000) := by
    rw [h24, h25]; norm_num
  have t4' : 50000 - ((0 : Nat) + (mkStr 24000).length
      + (mkStr 25000).length) ≥ 1000 := by
    rw [h24, h25]
  refine ⟨?_, ?_, by rw [h24, h25]⟩
  · rw [truncate_files, hs]
    show (truncateLoop 50000
        [("a", mkStr 24000), ("b", mkStr 25000), ("c", mkStr 26000)] 0).map
        Prod.fst = ["a", "b"]
    rw [truncateLoop, if_pos t1, truncateLoop, if_pos t2, truncateLoop,
      if_neg t3]
    show (("a", mkStr 24000) :: ("b", mkStr 25000) ::
        (if 50000 - (0 + (mkStr 24000).length + (mkStr 25000).length) > 1000
          then [("c", sTake (mkStr 26000)
              (50000 - (0 + (mkStr 24000).length + (mkStr 25000).length))
            ++ "\n\n... (truncated)")]
          else [])).map Prod.fst = ["a", "b"]
    rw [if_neg t4]
    rfl
  · rw [truncate_files_specGE, hs]
    show (truncateLoopSpecGE 50000
        [("a", mkStr 24000), ("b", mkStr 25000), ("c", mkStr 26000)] 0).map
        Prod.fst = ["a", "b", "c"]
    rw [truncateLoopSpecGE, if_pos t1, truncateLoopSpecGE, if_pos t2,
      truncateLoopSpecGE, if_neg t3]
    show (("a", mkStr 24000) :: ("b", mkStr 25000) ::
        (if 50000 - (0 + (mkStr 24000).length + (mkStr 25000).length) ≥ 1000
          then [("c", sTake (mkStr 26000)
              (50000 - (0 + (mkStr 24000).length + (mkStr 25000).length))
            ++ "\n\n... (truncated)")]
          else [])).map Prod.fst = ["a", "b", "c"]
    rw [if_pos t4']
    rfl

/-- `GoodLine` is monotone in the line set. -/
theorem goodLine_mono {ls ls' : List String} (hsub : ∀ x ∈ ls, x ∈ ls')
    {s : String} (h : GoodLine ls s) : GoodLine ls' s := by
  obtain ⟨line, hmem, h1, h2, h3⟩ := h
  exact ⟨line, hsub line hmem, h1, h2, h3⟩

/-- `GoodVal` is monotone in the line set. -/
theorem goodVal_mono {ls ls' : List String} (hsub : ∀ x ∈ ls, x ∈ ls')
    {v : String} (h : GoodVal ls v) : GoodVal ls' v := by
  obtain ⟨L, hne, hv, hL⟩ := h
  exact ⟨L, hne, hv, fun s hs => goodLine_mono hsub (hL s hs)⟩

/-- `StInv` is monotone in the line set. -/
theorem stInv_mono {ls ls' : List String} {st : ExtractState}
    (hsub : ∀ x ∈ ls, x ∈ ls') (h : StInv ls st) : StInv ls' st := by
  obtain ⟨h1, h2, h3⟩ := h
  exact ⟨fun kv hkv => ⟨(h1 kv hkv).1, goodVal_mono hsub (h1 kv hkv).2⟩, h2,
    fun s hs => goodLine_mono hsub (h3 s hs)⟩

/-- A property holding of every entry and of the inserted pair holds of
every entry of the updated dict. -/
theorem dictInsert_prop {P : String × String → Prop}
    {m : List (String × String)} {k v : String}
    (hm : ∀ kv ∈ m, P kv) (hkv : P (k, v)) :
    ∀ kv ∈ dictInsert m k v, P kv := by
  intro kv hmem
  unfold dictInsert at hmem
  by_cases hc : m.any (fun e => e.1 == k) = true
  · rw [if_pos hc] at hmem
    obtain ⟨e, he, heq⟩ := List.mem_map.mp hmem
    by_cases hek : (e.1 == k) = true
    · rw [if_pos hek] at heq
      exact heq ▸ hkv
    · rw [if_neg hek] at heq
      exact heq ▸ hm e he
  · rw [if_neg hc] at hmem
    rcases List.mem_append.mp hmem with h | h
    · exact hm kv h
    · rw [List.mem_singleton] at h
      exact h ▸ hkv

/-- The flush performed at a `diff --git` header preserves the invariant. -/
theorem flushed_inv {ls : List String} {st : ExtractState} (h : StInv ls st) :
    StInv ls (if strTruthy st.current_file && !st.current_content.isEmpty then
      { files := dictInsert st.files (st.current_file.getD "")
          (String.intercalate "\n" st.current_content),
        current_file := st.current_file,
        current_content := [] }
    else st) := by
  by_cases hb : (strTruthy st.current_file && !st.current_content.isEmpty) = true
  · rw [if_pos hb]
    obtain ⟨h1, h2, h3⟩ := h
    simp only [Bool.and_eq_true] at hb
    obtain ⟨hT, hNE⟩ := hb
    refine ⟨?_, h2, by simp⟩
    apply dictInsert_prop h1
    constructor
    · cases hcf : st.current_file with
      | none => rw [hcf] at hT; simp [strTruthy] at hT
      | some f => exact h2 f hcf
    · refine ⟨st.current_content, ?_, rfl, h3⟩
      intro hknil
      rw [hknil] at hNE
      simp at hNE
  · rw [if_neg hb]
    exact h

/-- One extraction step preserves the invariant, with the processed line
appended to the line set. -/
theorem extractStep_inv {ls : List String} {st : ExtractState} (l : String)
    (h : StInv ls st) : StInv (ls ++ [l]) (extractStep st l) := by
  have hsub : ∀ x ∈ ls, x ∈ ls ++ [l] := fun x hx => List.mem_append_left _ hx
  unfold extractStep
  by_cases hA : sStartsWith l "diff --git" = true
  · rw [if_pos hA]
    have hfl := stInv_mono hsub (flushed_inv h)
    dsimp only
    by_cases hC : (splitChar ' ' l).length ≥ 4
    · rw [if_pos hC]
      obtain ⟨f1, f2, f3⟩ := hfl
      by_cases hD : sEndsWith (sDrop ((splitChar ' ' l).getD 3 "") 2) ".py" = true
      · rw [if_pos hD]
        exact ⟨f1, fun f hf => (Option.some.inj hf) ▸ hD, f3⟩
      · rw [if_neg hD]
        exact ⟨f1, fun f hf => Option.noConfusion hf, f3⟩
    · rw [if_neg hC]
      exact hfl
  · rw [if_neg hA]
    by_cases hB : (strTruthy st.current_file && sStartsWith l "+"
        && !(sStartsWith l "+++")) = true
    · rw [if_pos hB]
      obtain ⟨h1, h2, h3⟩ := h
      simp only [Bool.and_eq_true] at hB
      obtain ⟨⟨_, hplus⟩, hnot3⟩ := hB
      refine ⟨fun kv hkv => ⟨(h1 kv hkv).1, goodVal_mono hsub (h1 kv hkv).2⟩,
        h2, ?_⟩
      intro s hs
      rcases List.mem_append.mp hs with hs | hs
      · exact goodLine_mono hsub (h3 s hs)
      · rw [List.mem_singleton] at hs
        refine hs ▸ ⟨l, List.mem_append_right _ (List.mem_singleton.mpr rfl),
          hplus, ?_, rfl⟩
        simpa using hnot3
    · rw [if_neg hB]
      exact stInv_mono hsub h

/-- The extraction fold preserves the invariant over the processed lines. -/
theorem foldl_extract_inv : ∀ (rest ls : List String) (st : ExtractState),
    StInv ls st → StInv (ls ++ rest) (List.foldl extractStep st rest) := by
  intro rest
  induction rest with
  | nil =>
    intro ls st h
    simpa using h
  | cons l rest ih =>
    intro ls st h
    rw [List.foldl_cons]
    have h2 := ih (ls ++ [l]) (extractStep st l) (extractStep_inv l h)
    rw [List.append_assoc] at h2
    simpa using h2

/-- Without any `diff --git` header the extraction loop never changes an
untracking state. -/
theorem no_header_foldl : ∀ (ls : List String),
    (∀ l ∈ ls, sStartsWith l "diff --git" = false) →
    ∀ (fs : List (String × String)) (cc : List String),
      List.foldl extractStep ⟨fs, none, cc⟩ ls = ⟨fs, none, cc⟩ := by
  intro ls
  induction ls with
  | nil => intro _ fs cc; rfl
  | cons l rest ih =>
    intro h fs cc
    have hl := h l (List.mem_cons_self l rest)
    have hstep : extractStep ⟨fs, none, cc⟩ l = ⟨fs, none, cc⟩ := by
      unfold extractStep
      rw [if_neg (by rw [hl]; exact Bool.false_ne_true)]
      rw [if_neg (by simp [strTruthy])]
    rw [List.foldl_cons, hstep,
      ih (fun x hx => h x (List.mem_cons_of_mem l hx)) fs cc]

/-- C7: every key of the extracted map is a `.py` path; every value is the
newline-join of a nonempty list of added lines of the diff (`+` lines,
excluding the `+++` header, markers stripped) — so no `-` or context line
ever appears, and a tracked path with zero added lines is never inserted;
and a diff without any `diff --git` header yields the empty map. -/
theorem diff_extraction_correct (diff : String) :
    (∀ kv ∈ extract_python_files_from_diff diff,
      sEndsWith kv.1 ".py" = true ∧ GoodVal (splitChar '\n' diff) kv.2) ∧
    ((∀ l ∈ splitChar '\n' diff, sStartsWith l "diff --git" = false) →
      extract_python_files_from_diff diff = []) := by
  constructor
  · have h0 : StInv [] ⟨[], none, []⟩ := ⟨by simp, by simp, by simp⟩
    have hinv := foldl_extract_inv (splitChar '\n' diff) [] ⟨[], none, []⟩ h0
    rw [List.nil_append] at hinv
    unfold extract_python_files_from_diff
    dsimp only
    obtain ⟨h1, h2, h3⟩ := hinv
    by_cases hb : (strTruthy ((splitChar '\n' diff).foldl extractStep
        ⟨[], none, []⟩).current_file &&
        !((splitChar '\n' diff).foldl extractStep
          ⟨[], none, []⟩).current_content.isEmpty) = true
    · rw [if_pos hb]
      simp only [Bool.and_eq_true] at hb
      obtain ⟨hT, hNE⟩ := hb
      apply dictInsert_prop h1
      constructor
      · cases hcf : ((splitChar '\n' diff).foldl extractStep
            ⟨[], none, []⟩).current_file with
        | none => rw [hcf] at hT; simp [strTruthy] at hT
        | some f => exact h2 f hcf
      · refine ⟨((splitChar '\n' diff).foldl extractStep
            ⟨[], none, []⟩).current_content, ?_, rfl, h3⟩
        intro hknil
        rw [hknil] at hNE
        simp at hNE
    · rw [if_neg hb]
      exact h1
  · intro hnh
    unfold extract_python_files_from_diff
    dsimp only
    rw [no_header_foldl _ hnh [] []]
    simp [strTruthy]

/-- Witness for C7 at a concrete input: a diff with an added line but no
`diff --git` header extracts to the empty map. -/
theorem diff_extraction_correct_witness :
    extract_python_files_from_diff "hello\n+world" = [] :=
  (diff_extraction_correct "hello\n+world").2 (by decide)

/-- The `"pending"` row as `create_review` builds it. -/
def rvP : ReviewRow := ⟨"pending", none, 0, 0, 0⟩

/-- The row after the `"in_progress"` transition. -/
def rvI : ReviewRow := ⟨"in_progress", none, 0, 0, 0⟩

/-- The severity counts a run computes from its three analyzer slots. -/
def envCounts (env : Env) : Nat × Nat × Nat :=
  countBySeverity
    (aggregateFindings [env.secResult, env.qualResult, env.compResult])

/-- The completed row of the full-analysis path. -/
def rvC (env : Env) : ReviewRow :=
  ⟨"completed",
    some (calculate_score (envCounts env).1 (envCounts env).2.1 (envCounts env).2.2),
    (envCounts env).1, (envCounts env).2.1, (envCounts env).2.2⟩

/-- The failed row produced when the full-analysis completion commit raised. -/
def rvCF (env : Env) : ReviewRow :=
  ⟨"failed",
    some (calculate_score (envCounts env).1 (envCounts env).2.1 (envCounts env).2.2),
    (envCounts env).1, (envCounts env).2.1, (envCounts env).2.2⟩

/-- Exhaustive symbolic execution of `create_review` + `_run_analysis`: one
disjunct per control path, determined by the commit outcomes, the diff
fetch, the candidate-file set and the workspace write. -/
theorem runReview_enum (env : Env) :
    runReview env = (rvP, ⟨["pending"], [], 1, 0, false, false⟩) ∨
    runReview env = (⟨"failed", none, 0, 0, 0⟩,
      ⟨["pending", "in_progress", "failed"],
        [rvP, ⟨"failed", none, 0, 0, 0⟩], 3, 0, false, false⟩) ∨
    runReview env = (⟨"failed", none, 0, 0, 0⟩,
      ⟨["pending", "in_progress", "failed"], [rvP], 3, 0, false, false⟩) ∨
    runReview env = (⟨"failed", none, 0, 0, 0⟩,
      ⟨["pending", "in_progress", "failed"],
        [rvP, rvI, ⟨"failed", none, 0, 0, 0⟩], 3, 0, false, false⟩) ∨
    runReview env = (⟨"failed", none, 0, 0, 0⟩,
      ⟨["pending", "in_progress", "failed"], [rvP, rvI], 3, 0, false, false⟩) ∨
    runReview env = (⟨"completed", some 100, 0, 0, 0⟩,
      ⟨["pending", "in_progress", "completed"],
        [rvP, rvI, ⟨"completed", some 100, 0, 0, 0⟩], 3, 0, false, false⟩) ∨
    runReview env = (⟨"failed", some 100, 0, 0, 0⟩,
      ⟨["pending", "in_progress", "completed", "failed"],
        [rvP, rvI, ⟨"failed", some 100, 0, 0, 0⟩], 4, 0, false, true⟩) ∨
    runReview env = (⟨"failed", some 100, 0, 0, 0⟩,
      ⟨["pending", "in_progress", "completed", "failed"],
        [rvP, rvI], 4, 0, false, true⟩) ∨
    runReview env = (⟨"failed", none, 0, 0, 0⟩,
      ⟨["pending", "in_progress", "failed"],
        [rvP, rvI, ⟨"failed", none, 0, 0, 0⟩], 3, 1, false, false⟩) ∨
    runReview env = (⟨"failed", none, 0, 0, 0⟩,
      ⟨["pending", "in_progress", "failed"], [rvP, rvI], 3, 1, false, false⟩) ∨
    runReview env = (rvC env,
      ⟨["pending", "in_progress", "completed"],
        [rvP, rvI, rvC env], 3, 1, false, false⟩) ∨
    runReview env = (rvCF env,
      ⟨["pending", "in_progress", "completed", "failed"],
        [rvP, rvI, rvCF env], 4, 1, false, true⟩) ∨
    runReview env = (rvCF env,
      ⟨["pending", "in_progress", "completed", "failed"],
        [rvP, rvI], 4, 1, false, true⟩) := by
  rcases hc0 : env.commitOk 0 with _ | _
  · exact Or.inl (by simp [runReview, commitDb, setStatus, rvP, hc0])
  · rcases hc1 : env.commitOk 1 with _ | _
    · rcases hc2 : env.commitOk 2 with _ | _
      · exact Or.inr (Or.inr (Or.inl (by
          simp [runReview, runAnalysis, tryBody, exceptClause, finallyCleanup,
            commitDb, setStatus, rvP, hc0, hc1, hc2])))
      · exact Or.inr (Or.inl (by
          simp [runReview, runAnalysis, tryBody, exceptClause, finallyCleanup,
            commitDb, setStatus, rvP, hc0, hc1, hc2]))
    · rcases he : env.fetchDiff with e | diff
      · rcases hc2 : env.commitOk 2 with _ | _
        · exact Or.inr (Or.inr (Or.inr (Or.inr (Or.inl (by
            simp [runReview, runAnalysis, tryBody, exceptClause,
              finallyCleanup, commitDb, setStatus, rvP, rvI, hc0, hc1, hc2,
              he])))))
        · exact Or.inr (Or.inr (Or.inr (Or.inl (by
            simp [runReview, runAnalysis, tryBody, exceptClause,
              finallyCleanup, commitDb, setStatus, rvP, rvI, hc0, hc1, hc2,
              he]))))
      · rcases hpy : (extract_python_files_from_diff diff).isEmpty with _ | _
        · rcases hw : env.writeOk with _ | _
          · rcases hc2 : env.commitOk 2 with _ | _
            · refine Or.inr (Or.inr (Or.inr (Or.inr (Or.inr (Or.inr (Or.inr
                (Or.inr (Or.inr (Or.inl (by
                  simp [runReview, runAnalysis, tryBody, exceptClause,
                    finallyCleanup, commitDb, setStatus, rvP, rvI, hc0, hc1,
                    hc2, he, hpy, hw]))))))))))
            · refine Or.inr (Or.inr (Or.inr (Or.inr (Or.inr (Or.inr (Or.inr
                (Or.inr (Or.inl (by
                  simp [runReview, runAnalysis, tryBody, exceptClause,
                    finallyCleanup, commitDb, setStatus, rvP, rvI, hc0, hc1,
                    hc2, he, hpy, hw])))))))))
          · rcases hc2 : env.commitOk 2 with _ | _
            · rcases hc3 : env.commitOk 3 with _ | _
              · refine Or.inr (Or.inr (Or.inr (Or.inr (Or.inr (Or.inr (Or.inr
                  (Or.inr (Or.inr (Or.inr (Or.inr (Or.inr (by
                    simp [runReview, runAnalysis, tryBody, exceptClause,
                      finallyCleanup, commitDb, setStatus, rvP, rvI, rvCF,
                      rvC, envCounts, hc0, hc1, hc2, hc3, he, hpy, hw]))))))))))))
              · refine Or.inr (Or.inr (Or.inr (Or.inr (Or.inr (Or.inr (Or.inr
                  (Or.inr (Or.inr (Or.inr (Or.inr (Or.inl (by
                    simp [runReview, runAnalysis, tryBody, exceptClause,
                      finallyCleanup, commitDb, setStatus, rvP, rvI, rvCF,
                      rvC, envCounts, hc0, hc1, hc2, hc3, he, hpy, hw]))))))))))))
            · refine Or.inr (Or.inr (Or.inr (Or.inr (Or.inr (Or.inr (Or.inr
                (Or.inr (Or.inr (Or.inr (Or.inl (by
                  simp [runReview, runAnalysis, tryBody, exceptClause,
                    finallyCleanup, commitDb, setStatus, rvP, rvI, rvC,
                    envCounts, hc0, hc1, hc2, he, hpy, hw])))))))))))
        · rcases hc2 : env.commitOk 2 with _ | _
          · rcases hc3 : env.commitOk 3 with _ | _
            · refine Or.inr (Or.inr (Or.inr (Or.inr (Or.inr (Or.inr (Or.inr
                (Or.inl (by
                  simp [runReview, runAnalysis, tryBody, exceptClause,
                    finallyCleanup, commitDb, setStatus, rvP, rvI, hc0, hc1,
                    hc2, hc3, he, hpy]))))))))
            · refine Or.inr (Or.inr (Or.inr (Or.inr (Or.inr (Or.inr (Or.inl
                (by
                  simp [runReview, runAnalysis, tryBody, exceptClause,
                    finallyCleanup, commitDb, setStatus, rvP, rvI, hc0, hc1,
                    hc2, hc3, he, hpy])))))))
          · refine Or.inr (Or.inr (Or.inr (Or.inr (Or.inr (Or.inl (by
              simp [runReview, runAnalysis, tryBody, exceptClause,
                finallyCleanup, commitDb, setStatus, rvP, rvI, hc0, hc1, hc2,
                he, hpy]))))))

/-- C2: under every combination of external outcomes, a run creates at most
one workspace, and after the run — normal completion, any exception, the
zero-candidate early return, even a failing commit inside the `except`
clause — the workspace directory no longer exists. -/
theorem workspace_cleanup_invariant (env : Env) :
    (runReview env).2.wsCreated ≤ 1 ∧ (runReview env).2.wsExists = false := by
  rcases runReview_enum env with h|h|h|h|h|h|h|h|h|h|h|h|h <;> simp [h]

/-- C1 counterexample: in `cexEnv` — every step succeeds except the commit
persisting the completed row, and the `except`-clause commit succeeds — the
in-memory Review status runs `pending → in_progress → completed → failed`:
the terminal state `completed` is not final. -/
theorem review_status_transitions_cex :
    (runReview cexEnv).2.statusHistory
      = ["pending", "in_progress", "completed", "failed"] ∧
    (runReview cexEnv).1.status = "failed" := by
  constructor
  · decide
  · decide

/-- C1 amended: the in-memory status history follows
`pending → in_progress → {completed | failed}` except for a single
`completed → failed` step, which happens only when the commit persisting
the completed row raises; the committed (persisted) status sequence is
always a forward path along the chain and never contains `completed`
followed by `failed`. -/
theorem review_status_transitions (env : Env) :
    ((runReview env).2.statusHistory = ["pending"] ∨
     (runReview env).2.statusHistory = ["pending", "in_progress", "completed"] ∨
     (runReview env).2.statusHistory = ["pending", "in_progress", "failed"] ∨
     (runReview env).2.statusHistory
       = ["pending", "in_progress", "completed", "failed"]) ∧
    ((runReview env).2.statusHistory
        = ["pending", "in_progress", "completed", "failed"] →
      (runReview env).2.completionCommitRaised = true) ∧
    ((runReview env).2.committed.map ReviewRow.status = [] ∨
     (runReview env).2.committed.map ReviewRow.status = ["pending"] ∨
     (runReview env).2.committed.map ReviewRow.status = ["pending", "failed"] ∨
     (runReview env).2.committed.map ReviewRow.status
       = ["pending", "in_progress"] ∨
     (runReview env).2.committed.map ReviewRow.status
       = ["pending", "in_progress", "completed"] ∨
     (runReview env).2.committed.map ReviewRow.status
       = ["pending", "in_progress", "failed"]) := by
  rcases runReview_enum env with h|h|h|h|h|h|h|h|h|h|h|h|h <;>
    simp [h, rvP, rvI, rvC, rvCF]

/-- Witness for C1's amended statement: in `cexEnv` the
`completed → failed` step indeed coincides with the completion commit
raising. -/
theorem review_status_transitions_witness :
    (runReview cexEnv).2.completionCommitRaised = true :=
  (review_status_transitions cexEnv).2.1 (by decide)

/-- C8 counterexample: in `cexEnv` the run ends `failed` with
`overall_score = 100` (set on the completed row whose commit then raised
and never cleared by the `except` clause), and the persisted snapshots end
with a `failed` row carrying that non-null score. -/
theorem score_status_cex :
    (runReview cexEnv).1.status = "failed" ∧
    (runReview cexEnv).1.overall_score = some 100 ∧
    (runReview cexEnv).2.committed.map (fun r => (r.status, r.overall_score))
      = [("pending", none), ("in_progress", none), ("failed", some 100)] := by
  refine ⟨by decide, by decide, by decide⟩

/-- C8 amended: in every reachable in-memory or committed state, a
`pending` or `in_progress` review has a null `overall_score` and a
`completed` review has a non-null one; a `failed` review has a null
`overall_score` unless the commit persisting its completed state raised, in
which case the already-computed score remains attached to the failed
review. -/
theorem score_status_invariant (env : Env) :
    (∀ r ∈ (runReview env).2.committed,
      ((r.status = "pending" ∨ r.status = "in_progress") →
        r.overall_score = none) ∧
      (r.status = "completed" → r.overall_score ≠ none) ∧
      (r.status = "failed" → r.overall_score = none ∨
        (runReview env).2.completionCommitRaised = true)) ∧
    (((runReview env).1.status = "pending" ∨
        (runReview env).1.status = "in_progress") →
      (runReview env).1.overall_score = none) ∧
    ((runReview env).1.status = "completed" →
      (runReview env).1.overall_score ≠ none) ∧
    ((runReview env).1.status = "failed" →
      (runReview env).1.overall_score = none ∨
      (runReview env).2.completionCommitRaised = true) := by
  rcases runReview_enum env with h|h|h|h|h|h|h|h|h|h|h|h|h <;>
    simp [h, rvP, rvI, rvC, rvCF]

/-- Witness for C8's amended statement: a fully successful run ends
`completed` with a non-null score. -/
theorem score_status_invariant_witness :
    (runReview okEnv).1.overall_score ≠ none :=
  (score_status_invariant okEnv).2.2.1 (by decide)

end CodeReview
